import Mathlib

/-!
Verification of the task-lifecycle core of the `abbyy-cloud-ocr` client
(`src/src/ocrsdk.js`, `src/src/index.ts`, and the revised client in
`src/unnamed/part_000`).

The JavaScript/TypeScript sources are shallowly embedded: strings are
manipulated at the level of their character lists (all relevant JS string
operations here — `split` on a one-character separator, `slice`, `indexOf`,
concatenation, truthiness — are character-exact for the ASCII data the
client handles), the event-emitter traffic is modelled as an explicit list
of emitted events, and the network is modelled as an explicit list of
replies consumed by successive requests.
-/

/-! ## JS string helpers -/

/-- JS truthiness of a possibly-missing string: `undefined`/`null` and the
empty string are falsy, every other string is truthy. -/
def truthyStr (o : Option String) : Bool :=
  match o with
  | none => false
  | some s => !s.data.isEmpty

/-- Does `l` start with `pat` (character-wise)?  Mirrors the prefix test
underlying `String.prototype.indexOf`. -/
def startsWithChars : List Char → List Char → Bool
  | [], _ => true
  | _ :: _, [] => false
  | p :: ps, c :: cs => p == c && startsWithChars ps cs

/-- Does `l` contain `pat` as a contiguous substring?  `containsChars pat l`
is the embedding of `l.indexOf(pat) > -1` for a non-empty ASCII pattern. -/
def containsChars (pat : List Char) : List Char → Bool
  | [] => startsWithChars pat []
  | c :: cs => startsWithChars pat (c :: cs) || containsChars pat cs

/-- `s.indexOf(pat) > -1` on JS strings. -/
def stringIncludes (s pat : String) : Bool :=
  containsChars pat.data s.data

/-- JS `str.split(sep)` for a one-character separator, on character lists. -/
def splitOnChar (sep : Char) : List Char → List (List Char)
  | [] => [[]]
  | c :: cs =>
    let r := splitOnChar sep cs
    if c = sep then [] :: r
    else
      match r with
      | [] => [[c]]
      | h :: t => (c :: h) :: t

/-- JS `Array.prototype.join(".")`: the embedding works on the list of parts
produced by `splitOnChar`. -/
def joinDot : List (List Char) → List Char
  | [] => []
  | [p] => p
  | p :: q :: rest => p ++ '.' :: joinDot (q :: rest)

/-- JS `path.basename`, restricted to `/`-separated paths: the last
path component. -/
def basename (p : String) : String :=
  String.mk ((splitOnChar '/' p.data).getLastD p.data)

/-! ## Data model (`ocrsdk.js`, `index.ts`) -/

/-- The service's structured error envelope (`ErrorStruct` in `index.ts`).
The optional nested `details` list is not used by any operation modelled
here and is omitted. -/
structure ErrorStruct where
  code : String
  message : String
  target : String
deriving DecidableEq, Repr

/-- `TaskData` as used by `ocrsdk.js`: the task id, its status string, the
up-to-three positional result URLs of the legacy dialect, and the optional
error payload.  A missing (JS `undefined`) field is `none`. -/
structure TaskData where
  id : String := ""
  status : String := ""
  resultUrl : Option String := none
  resultUrl2 : Option String := none
  resultUrl3 : Option String := none
  error : Option ErrorStruct := none
deriving DecidableEq, Repr

/-- `Ocrsdk.isTaskActive`: `String(taskData.status) === 'Queued' ||
String(taskData.status) === 'InProgress'`. -/
def isTaskActive (td : TaskData) : Bool :=
  td.status == "Queued" || td.status == "InProgress"

/-! ## The polling loop (`Ocrsdk.waitForCompletion`) -/

/-- Observable steps of the polling loop: a `setTimeout` wait of the given
number of milliseconds, or one `getTaskStatus` network query. -/
inductive PollEvent where
  | wait (ms : Nat)
  | query
deriving DecidableEq, Repr

/-- One simulated transport: the list of successive `getTaskStatus` replies,
each either a transport error (the `error` argument of the callback) or a
`TaskData`. -/
abbrev StatusReplies := List (Except String TaskData)

/-- The body of `waitForCompletion`'s `waitFunction` recursion: each
iteration first waits `waitTimeout = 5000` ms (`setTimeout`), then issues one
`getTaskStatus` query consuming the next transport reply.  A transport error
is passed to the callback at once; an active status schedules another
iteration; any other status is passed to the callback.  `none` means the
reply list ran out while the task was still active (the JS loop would simply
keep polling — it has no attempt cap). -/
def waitLoop : StatusReplies → List PollEvent × Option (Except String TaskData)
  | [] => ([], none)
  | r :: rest =>
    match r with
    | .error e => ([.wait 5000, .query], some (.error e))
    | .ok td =>
      if isTaskActive td then
        let x := waitLoop rest
        (.wait 5000 :: .query :: x.1, x.2)
      else ([.wait 5000, .query], some (.ok td))

/-- `Ocrsdk.waitForCompletion`: if `taskId.indexOf('00000000') > -1` the
callback is invoked immediately with `Error('Null id passed')` and no
query is issued; otherwise the poll loop runs. -/
def waitForCompletion (taskId : String) (replies : StatusReplies) :
    List PollEvent × Option (Except String TaskData) :=
  if stringIncludes taskId "00000000" then
    ([], some (.error "Null id passed"))
  else
    waitLoop replies

/-! ## Settings and the client state (`index.ts`) -/

/-- `ProcessingSettings` with its constructor defaults
(`language="English"`, `exportFormat="txt"`, `customOptions=""`). -/
structure ProcessingSettings where
  language : String := "English"
  exportFormat : String := "txt"
  customOptions : String := ""
deriving DecidableEq, Repr

/-- The fields of an `AbbyyOcr` client instance. -/
structure AbbyyOcr where
  appId : String
  password : String
  serviceUrl : String
  settings : ProcessingSettings
  fileName : String
  downloadUrls : List String
deriving DecidableEq, Repr

/-- Errors surfaced by `AbbyyOcr.process` (`index.ts`): a transport-level
error propagated from a request, the `"Unexpected task status"` rejection of
a non-active freshly created task, or the rejection with the descriptor's
error payload (`reject(taskData.error)`) when polling ends in a non-
`Completed` terminal status. -/
inductive ProcessError where
  | transport (msg : String)
  | unexpectedStatus (status : String)
  | processing (errorInfo : Option ErrorStruct)
deriving DecidableEq, Repr

/-- The `AbbyyOcr` constructor: `if (!appId || !password || !serviceUrl)
throw new Error("Incomplete parameters")`, then store the credentials, the
given settings or fresh defaults, an empty file name and an empty download
list.  A missing argument (JS `undefined`) is `none`. -/
def newAbbyyOcr (appId password serviceUrl : Option String)
    (settings : Option ProcessingSettings) : Except String AbbyyOcr :=
  if !truthyStr appId || !truthyStr password || !truthyStr serviceUrl then
    .error "Incomplete parameters"
  else
    .ok { appId := appId.getD "", password := password.getD "",
          serviceUrl := serviceUrl.getD "",
          settings := settings.getD {},
          fileName := "", downloadUrls := [] }

/-! ## Authorization headers (`callService`) -/

/-- Byte values of an ASCII string (`Buffer.from(s, 'utf-8')` restricted to
ASCII, where UTF-8 bytes coincide with code points). -/
def strBytes (s : String) : List Nat :=
  s.data.map Char.toNat

/-- The standard base64 alphabet. -/
def b64Alphabet : List Char :=
  "ABCDEFGHIJKLMNOPQRSTUVWXYZabcdefghijklmnopqrstuvwxyz0123456789+/".data

/-- The base64 digit for a 6-bit value. -/
def b64Char (n : Nat) : Char :=
  b64Alphabet.getD n 'A'

/-- RFC 4648 base64 of a byte list (`Buffer.prototype.toString('base64')`). -/
def base64Encode : List Nat → String
  | [] => ""
  | [a] =>
    String.mk [b64Char (a / 4), b64Char (a % 4 * 16), '=', '=']
  | [a, b] =>
    String.mk [b64Char (a / 4), b64Char (a % 4 * 16 + b / 16),
      b64Char (b % 16 * 4), '=']
  | a :: b :: c :: rest =>
    String.mk [b64Char (a / 4), b64Char (a % 4 * 16 + b / 16),
      b64Char (b % 16 * 4 + c / 64), b64Char (c % 64)] ++ base64Encode rest

/-- The Authorization header built by `callService` in `src/src/index.ts`
line 108: the template literal `Basic ${this.appId}:${this.password}`. -/
def authorizationHeaderV1 (appId password : String) : String :=
  "Basic " ++ appId ++ ":" ++ password

/-- The Authorization header built by the revised `callService` in
`src/unnamed/part_000` line 114: `Basic ` followed by the base64 encoding of
`this.appId + ":" + this.password`. -/
def authorizationHeaderV2 (appId password : String) : String :=
  "Basic " ++ base64Encode (strBytes (appId ++ ":" ++ password))

/-! ## The download sequencer (`AbbyyOcr.downloadResult`, `index.ts`) -/

/-- Progress events published on the client's emitter. -/
inductive Event where
  | uploading (fileName : String)
  | processing (fileName : String)
  | downloading (fileName : String)
deriving DecidableEq, Repr

/-- JS `Array.prototype.shift()`: the removed first element (`undefined`
when the array is empty) and the remaining array. -/
def jsShift (l : List (List Char)) : Option (List Char) × List (List Char) :=
  match l with
  | [] => (none, [])
  | x :: xs => (some x, xs)

/-- The per-format target extension: `const ext = format.slice(0,3);
return ["pdf","txt"].includes(ext) ? ext : format;`. -/
def extForFormat (format : List Char) : List Char :=
  let ext := format.take 3
  if ext = "pdf".data ∨ ext = "txt".data then ext else format

/-- `this.settings.exportFormat.split(",").map(...)`: the queue of target
extensions of `downloadResult`. -/
def computeExtensions (exportFormat : String) : List (List Char) :=
  (splitOnChar ',' exportFormat.data).map extForFormat

/-- `this.fileName.split(".").slice(0,-1).concat([extensions.shift()])
.join(".")`: the original file name with its last dot-component replaced by
the dequeued extension.  A JS `undefined` extension (`none`) becomes the
empty string under `join`. -/
def buildFileName (orig : String) (extOpt : Option (List Char)) : String :=
  String.mk (joinDot ((splitOnChar '.' orig.data).dropLast ++ [extOpt.getD []]))

/-- `path.join(targetDir, fileName)` for a plain directory path. -/
def pathJoin (dir fileName : String) : String :=
  dir ++ "/" ++ fileName

/-- The state threaded through the `downloadResult` generator: the client
instance (readable, and in principle writable, by the loop body), the result
URLs not yet fetched, and the local `extensions` array. -/
structure DownloadState where
  client : AbbyyOcr
  pendingUrls : List String
  extensions : List (List Char)
deriving DecidableEq, Repr

/-- The `for (let url of this.downloadUrls)` loop of `downloadResult`.
`fetchOk url` models `response.ok` for the fetch of `url`; a falsy response
throws `Unexpected response ...`.  Otherwise the step shifts the next
extension, computes the target file name from the client's `fileName`,
emits a `downloading` event, and yields the target path.  The function
returns the emitted events together with either the thrown error or the
yielded paths and the final generator state. -/
def runDownloadLoop (fetchOk : String → Bool) (targetDir : String)
    (client : AbbyyOcr) :
    List String → List (List Char) →
    List Event × Except String (List String × DownloadState)
  | [], exts => ([], .ok ([], ⟨client, [], exts⟩))
  | url :: rest, exts =>
    if fetchOk url then
      let sh := jsShift exts
      let fn := buildFileName client.fileName sh.1
      let targetPath := pathJoin targetDir fn
      let r := runDownloadLoop fetchOk targetDir client rest sh.2
      (Event.downloading fn :: r.1,
        r.2.map fun pr => (targetPath :: pr.1, pr.2))
    else ([], .error ("Unexpected response fetching " ++ url))

/-- `AbbyyOcr.downloadResult(targetDir?)`, run to exhaustion:
`targetDir = targetDir || tmpdir()`, then the download loop over
`this.downloadUrls` with the extension queue computed from
`this.settings.exportFormat`. -/
def downloadResult (fetchOk : String → Bool) (tmpDir : String)
    (client : AbbyyOcr) (targetDirOpt : Option String) :
    List Event × Except String (List String × DownloadState) :=
  let targetDir := match targetDirOpt with | none => tmpDir | some d => d
  runDownloadLoop fetchOk targetDir client client.downloadUrls
    (computeExtensions client.settings.exportFormat)

/-! ## Task processing (`AbbyyOcr.process`, `index.ts`) -/

/-- The second stage of `process`: the promise wrapping
`this.ocrsdk.waitForCompletion(taskData.id, ...)`.  A callback error
rejects with it; a descriptor whose `status.toString() !== 'Completed'`
rejects with `taskData.error`; a `Completed` descriptor resolves.  The
result is `none` when the simulated transport ran out of replies while the
task was still active. -/
def awaitCompletion (taskId : String) (replies : StatusReplies) :
    List PollEvent × Option (Except ProcessError TaskData) :=
  let w := waitForCompletion taskId replies
  (w.1, w.2.map fun r =>
    match r with
    | .error e => .error (.transport e)
    | .ok td =>
      if td.status = "Completed" then .ok td
      else .error (.processing td.error))

/-- The result-URL collection at the end of `process`: for each of
`resultUrl`, `resultUrl2`, `resultUrl3` in order, push it when truthy. -/
def collectUrls (td : TaskData) : List String :=
  [td.resultUrl, td.resultUrl2, td.resultUrl3].filterMap fun o =>
    if truthyStr o then o else none

/-- `AbbyyOcr.process(filePath)` (`src/src/index.ts` lines 133-165):
sets `this.fileName = path.basename(filePath)`, emits `uploading`, submits
the image (`submitReply` is the callback pair of `processImage`; a non-
active fresh task is rejected as `"Unexpected task status"`), emits
`processing`, awaits completion against the simulated transport, and stores
the collected result URLs.  Returns the emitted events and the outcome
(`none` while still polling). -/
def processRun (client : AbbyyOcr) (filePath : String)
    (submitReply : Except String TaskData) (replies : StatusReplies) :
    List Event × Option (Except ProcessError AbbyyOcr) :=
  let bn := basename filePath
  let c1 : AbbyyOcr := { client with fileName := bn }
  match submitReply with
  | .error e => ([.uploading bn], some (.error (.transport e)))
  | .ok td0 =>
    if isTaskActive td0 then
      match (awaitCompletion td0.id replies).2 with
      | none => ([.uploading bn, .processing bn], none)
      | some (.error pe) =>
        ([.uploading bn, .processing bn], some (.error pe))
      | some (.ok td) =>
        ([.uploading bn, .processing bn],
          some (.ok { c1 with downloadUrls := collectUrls td }))
    else ([.uploading bn], some (.error (.unexpectedStatus td0.status)))

/-- One single-file run as driven by the CLI: `process(filePath)` followed,
on success, by draining `downloadResult(targetDir?)`.  Returns the full
event trace seen by subscribers of the client's emitter. -/
def fullRunEvents (client : AbbyyOcr) (filePath : String)
    (submitReply : Except String TaskData) (replies : StatusReplies)
    (fetchOk : String → Bool) (tmpDir : String)
    (targetDirOpt : Option String) : List Event :=
  let pr := processRun client filePath submitReply replies
  match pr.2 with
  | some (.ok c2) => pr.1 ++ (downloadResult fetchOk tmpDir c2 targetDirOpt).1
  | _ => pr.1

/-! ## Polling correctness -/

/-- Claim C1: for a transport whose successive `getTaskStatus` replies are
`Queued`, `Queued`, `Completed`, `waitForCompletion` issues exactly 3 status
queries, each preceded by one fixed 5000 ms wait, and then invokes its
callback with a descriptor whose status is `Completed`. -/
theorem waitForCompletion_queued_queued_completed
    (tid : String) (td1 td2 td3 : TaskData)
    (hid : stringIncludes tid "00000000" = false)
    (h1 : td1.status = "Queued") (h2 : td2.status = "Queued")
    (h3 : td3.status = "Completed") :
    waitForCompletion tid [.ok td1, .ok td2, .ok td3] =
      ([.wait 5000, .query, .wait 5000, .query, .wait 5000, .query],
        some (.ok td3)) ∧ td3.status = "Completed" := by
  refine ⟨?_, h3⟩
  simp [waitForCompletion, hid, waitLoop, isTaskActive, h1, h2, h3]

/-- Witness for C1: the three-reply run on the concrete task id `task-1`. -/
theorem waitForCompletion_queued_queued_completed_witness :
    waitForCompletion "task-1"
        [.ok {status := "Queued"}, .ok {status := "Queued"},
          .ok {status := "Completed"}] =
      ([.wait 5000, .query, .wait 5000, .query, .wait 5000, .query],
        some (.ok {status := "Completed"})) ∧
      TaskData.status {status := "Completed"} = "Completed" :=
  waitForCompletion_queued_queued_completed "task-1" _ _ _ (by decide)
    rfl rfl rfl

/-- Claim C9: every task id containing the substring `00000000` anywhere is
rejected immediately with the `Null id passed` logical error, with no wait
and no status query. -/
theorem waitForCompletion_rejects_nullish_substring
    (tid : String) (replies : StatusReplies)
    (h : stringIncludes tid "00000000" = true) :
    waitForCompletion tid replies = ([], some (.error "Null id passed")) := by
  simp [waitForCompletion, h]

/-- Witness for C9: a valid-looking id that is not all zeros but contains
eight consecutive zeros is rejected without any query. -/
theorem waitForCompletion_rejects_nullish_substring_witness :
    stringIncludes "task00000000id" "00000000" = true ∧
    ("task00000000id".data.all fun c => c == '0') = false ∧
    waitForCompletion "task00000000id" [.ok {status := "Completed"}] =
      ([], some (.error "Null id passed")) :=
  ⟨by decide, by decide,
    waitForCompletion_rejects_nullish_substring _ _ (by decide)⟩

/-- Claim C4 counterexample: the id `0000` consists entirely of zero
characters, yet `waitForCompletion` does not fail: it waits, issues a
status query, and completes normally. -/
theorem waitForCompletion_allzero_short_id_polls :
    ("0000".data.all fun c => c == '0') = true ∧
    waitForCompletion "0000" [.ok {status := "Completed"}] =
      ([.wait 5000, .query], some (.ok {status := "Completed"})) :=
  ⟨by decide, by rfl⟩

/-- Prefix test: a list of `'0'` characters of length at least `k` starts
with `k` zeros. -/
theorem startsWithChars_zeros (k : Nat) :
    ∀ l : List Char, (∀ c ∈ l, c = '0') → k ≤ l.length →
      startsWithChars (List.replicate k '0') l = true := by
  induction k with
  | zero => intro l _ _; rfl
  | succ k ih =>
    intro l hall hlen
    match l with
    | [] => simp at hlen
    | c :: cs =>
      have hc : c = '0' := hall c (List.mem_cons_self c cs)
      have hrest : startsWithChars (List.replicate k '0') cs = true :=
        ih cs (fun x hx => hall x (List.mem_cons_of_mem c hx))
          (by simpa using Nat.succ_le_succ_iff.mp (by simpa using hlen))
      simp [List.replicate_succ, startsWithChars, hc, hrest]

/-- A list of `'0'` characters of length at least 8 contains the
eight-zeros pattern. -/
theorem containsChars_zeros (l : List Char) (hall : ∀ c ∈ l, c = '0')
    (hlen : 8 ≤ l.length) : containsChars "00000000".data l = true := by
  match l with
  | [] => simp at hlen
  | c :: cs =>
    have h8 : ("00000000".data : List Char) = List.replicate 8 '0' := by decide
    have hs : startsWithChars "00000000".data (c :: cs) = true := by
      rw [h8]; exact startsWithChars_zeros 8 (c :: cs) hall hlen
    simp [containsChars, hs]

/-- Claim C4 as amended: every task id consisting entirely of zero
characters *and of length at least 8* (in particular the all-zero GUID
filler) fails immediately with the `Null id passed` logical error and
issues no status query; shorter all-zero ids escape the guard. -/
theorem waitForCompletion_allzero_long_rejects
    (tid : String) (replies : StatusReplies)
    (hall : ∀ c ∈ tid.data, c = '0') (hlen : 8 ≤ tid.data.length) :
    waitForCompletion tid replies = ([], some (.error "Null id passed")) := by
  have h : stringIncludes tid "00000000" = true :=
    containsChars_zeros tid.data hall hlen
  simp [waitForCompletion, h]

/-- Witness for the amended C4: the eight-zero id is rejected at once. -/
theorem waitForCompletion_allzero_long_rejects_witness :
    waitForCompletion "00000000" [] =
      ([], some (.error "Null id passed")) :=
  waitForCompletion_allzero_long_rejects "00000000" [] (by decide) (by decide)

/-- Claim C5: whenever the poll loop ends with a descriptor whose terminal
status is not `Completed`, the await-completion stage of `process` rejects
with the processing error carrying exactly the descriptor's error payload. -/
theorem awaitCompletion_noncompleted_terminal
    (tid : String) (replies : StatusReplies) (td : TaskData)
    (hpoll : (waitForCompletion tid replies).2 = some (.ok td))
    (hst : td.status ≠ "Completed") :
    (awaitCompletion tid replies).2 =
      some (.error (.processing td.error)) := by
  simp [awaitCompletion, hpoll, hst]

/-- Witness for C5: a single `Failed` reply whose error payload is
`{code := "X", message := "boom"}` rejects with exactly that payload. -/
theorem awaitCompletion_noncompleted_terminal_witness :
    (awaitCompletion "t1"
        [.ok {status := "Failed", error := some ⟨"X", "boom", ""⟩}]).2 =
      some (.error (.processing (some ⟨"X", "boom", ""⟩))) :=
  awaitCompletion_noncompleted_terminal "t1" _
    {status := "Failed", error := some ⟨"X", "boom", ""⟩} (by rfl) (by decide)

/-! ## Construction and authorization -/

/-- Claim C8: construction succeeds whenever appId, password and serviceUrl
are all present and non-empty, and fails immediately with the configuration
error `Incomplete parameters` as soon as any one of the three is empty or
missing. -/
theorem newAbbyyOcr_validation (appId password serviceUrl : Option String)
    (settings : Option ProcessingSettings) :
    (truthyStr appId = true → truthyStr password = true →
      truthyStr serviceUrl = true →
      newAbbyyOcr appId password serviceUrl settings =
        .ok { appId := appId.getD "", password := password.getD "",
              serviceUrl := serviceUrl.getD "",
              settings := settings.getD {},
              fileName := "", downloadUrls := [] }) ∧
    (truthyStr appId = false ∨ truthyStr password = false ∨
        truthyStr serviceUrl = false →
      newAbbyyOcr appId password serviceUrl settings =
        .error "Incomplete parameters") := by
  constructor
  · intro ha hp hs
    simp [newAbbyyOcr, ha, hp, hs]
  · intro h
    rcases h with h | h | h <;> simp [newAbbyyOcr, h]

/-- Witness for C8: concrete successful construction, and failure both for
an empty password and for a missing appId. -/
theorem newAbbyyOcr_validation_witness :
    newAbbyyOcr (some "appid") (some "secret") (some "https://svc") none =
      .ok { appId := "appid", password := "secret",
            serviceUrl := "https://svc", settings := {},
            fileName := "", downloadUrls := [] } ∧
    newAbbyyOcr (some "appid") (some "") (some "https://svc") none =
      .error "Incomplete parameters" ∧
    newAbbyyOcr none (some "secret") (some "https://svc") none =
      .error "Incomplete parameters" :=
  ⟨(newAbbyyOcr_validation (some "appid") (some "secret")
      (some "https://svc") none).1 (by decide) (by decide) (by decide),
    (newAbbyyOcr_validation (some "appid") (some "")
      (some "https://svc") none).2 (Or.inr (Or.inl (by decide))),
    (newAbbyyOcr_validation none (some "secret")
      (some "https://svc") none).2 (Or.inl (by decide))⟩

/-- Claim C3 (code bug): at appId `app`, password `pw`, the `callService`
of `src/src/index.ts` puts the raw string `app:pw` after `Basic `, which is
not the base64 encoding `YXBwOnB3` of `app:pw` that the claim (and HTTP
Basic authentication) requires; the revised `callService` of
`src/unnamed/part_000` produces exactly that base64 credential. -/
theorem callService_authorization_not_base64 :
    authorizationHeaderV1 "app" "pw" = "Basic app:pw" ∧
    "Basic " ++ base64Encode (strBytes ("app" ++ ":" ++ "pw")) =
      "Basic YXBwOnB3" ∧
    authorizationHeaderV1 "app" "pw" ≠
      "Basic " ++ base64Encode (strBytes ("app" ++ ":" ++ "pw")) ∧
    authorizationHeaderV2 "app" "pw" =
      "Basic " ++ base64Encode (strBytes ("app" ++ ":" ++ "pw")) :=
  ⟨by decide, by decide, by decide, by decide⟩

/-! ## Download sequencer lemmas -/

/-- A list without the separator splits into itself alone. -/
theorem splitOnChar_not_mem (sep : Char) (l : List Char) (h : sep ∉ l) :
    splitOnChar sep l = [l] := by
  induction l with
  | nil => rfl
  | cons c cs ih =>
    have hc : ¬ c = sep := fun e => h (e ▸ List.mem_cons_self c cs)
    have hcs : sep ∉ cs := fun m => h (List.mem_cons_of_mem c m)
    simp [splitOnChar, hc, ih hcs]

/-- Splitting after a separator-free prefix peels that prefix off. -/
theorem splitOnChar_append (sep : Char) (l1 l2 : List Char) (h : sep ∉ l1) :
    splitOnChar sep (l1 ++ sep :: l2) = l1 :: splitOnChar sep l2 := by
  induction l1 with
  | nil => simp [splitOnChar]
  | cons c cs ih =>
    have hc : ¬ c = sep := fun e => h (e ▸ List.mem_cons_self c cs)
    have hcs : sep ∉ cs := fun m => h (List.mem_cons_of_mem c m)
    have ihe : splitOnChar sep (List.append cs (sep :: l2)) =
        cs :: splitOnChar sep l2 := ih hcs
    simp only [List.cons_append, splitOnChar, if_neg hc, ihe]

/-- For a name of the shape `base.oldExt` with dot-free components,
the computed download file name is `base.newExt`: the original extension is
replaced by the dequeued one. -/
theorem buildFileName_replaceExt (base ext0 newExt : List Char)
    (hb : '.' ∉ base) (he : '.' ∉ ext0) :
    buildFileName (String.mk (base ++ '.' :: ext0)) (some newExt) =
      String.mk (base ++ '.' :: newExt) := by
  have hsplit : splitOnChar '.' (base ++ '.' :: ext0) = [base, ext0] := by
    rw [splitOnChar_append '.' base ext0 hb, splitOnChar_not_mem '.' ext0 he]
  simp [buildFileName, hsplit, joinDot]

/-- Claim C2: for a client holding 2 result URLs and settings with
`exportFormat = "txt,pdf"`, draining `downloadResult` yields exactly 2
paths, in server order, the first named `base.txt` and the second
`base.pdf` — the original uploaded file's base name with its extension
replaced — so they end in `.txt` and `.pdf` respectively. -/
theorem downloadResult_txt_pdf
    (c : AbbyyOcr) (targetDir tmpDir : String)
    (base ext0 : List Char) (u1 u2 : String)
    (hfn : c.fileName = String.mk (base ++ '.' :: ext0))
    (hb : '.' ∉ base) (he : '.' ∉ ext0)
    (hfmt : c.settings.exportFormat = "txt,pdf")
    (hurls : c.downloadUrls = [u1, u2]) :
    downloadResult (fun _ => true) tmpDir c (some targetDir) =
      ([.downloading (String.mk (base ++ '.' :: "txt".data)),
        .downloading (String.mk (base ++ '.' :: "pdf".data))],
        .ok ([pathJoin targetDir (String.mk (base ++ '.' :: "txt".data)),
              pathJoin targetDir (String.mk (base ++ '.' :: "pdf".data))],
          ⟨c, [], []⟩)) ∧
    ".txt".data <:+ (base ++ '.' :: "txt".data) ∧
    ".pdf".data <:+ (base ++ '.' :: "pdf".data) := by
  have hext : computeExtensions "txt,pdf" = ["txt".data, "pdf".data] := by
    decide
  have hf1 := buildFileName_replaceExt base ext0 "txt".data hb he
  have hf2 := buildFileName_replaceExt base ext0 "pdf".data hb he
  refine ⟨?_, List.suffix_append base ('.' :: "txt".data),
    List.suffix_append base ('.' :: "pdf".data)⟩
  simp [downloadResult, hurls, hfmt, hext, runDownloadLoop, jsShift,
    hfn, hf1, hf2, Except.map]

/-- Witness for C2: the concrete client with file `doc.png`, formats
`txt,pdf` and two result URLs yields `/out/doc.txt` then `/out/doc.pdf`. -/
theorem downloadResult_txt_pdf_witness :
    downloadResult (fun _ => true) "/t"
        {appId := "a", password := "p", serviceUrl := "s",
          settings := {exportFormat := "txt,pdf"}, fileName := "doc.png",
          downloadUrls := ["u1", "u2"]} (some "/out") =
      ([.downloading (String.mk ("doc".data ++ '.' :: "txt".data)),
        .downloading (String.mk ("doc".data ++ '.' :: "pdf".data))],
        .ok ([pathJoin "/out" (String.mk ("doc".data ++ '.' :: "txt".data)),
              pathJoin "/out" (String.mk ("doc".data ++ '.' :: "pdf".data))],
          ⟨{appId := "a", password := "p", serviceUrl := "s",
            settings := {exportFormat := "txt,pdf"}, fileName := "doc.png",
            downloadUrls := ["u1", "u2"]}, [], []⟩)) ∧
    ".txt".data <:+ ("doc".data ++ '.' :: "txt".data) ∧
    ".pdf".data <:+ ("doc".data ++ '.' :: "pdf".data) :=
  downloadResult_txt_pdf
    {appId := "a", password := "p", serviceUrl := "s",
      settings := {exportFormat := "txt,pdf"}, fileName := "doc.png",
      downloadUrls := ["u1", "u2"]} "/out" "/t" "doc".data "png".data
    "u1" "u2" (by decide) (by decide) (by decide) rfl rfl

/-- Claim C6 counterexample: with two stored result URLs but a single
requested export format (`txt`), the queues are out of lock-step at the
second step — the extension queue is already empty while a URL remains —
yet the sequencer does not fail: it fabricates the extension-less file name
`doc.` and yields the path `/tmp/doc.` for it. -/
theorem downloadResult_mismatch_fabricates :
    downloadResult (fun _ => true) "/t"
        {appId := "a", password := "p", serviceUrl := "s",
          settings := {exportFormat := "txt"}, fileName := "doc.png",
          downloadUrls := ["u1", "u2"]} (some "/tmp") =
      ([.downloading "doc.txt", .downloading "doc."],
        .ok (["/tmp/doc.txt", "/tmp/doc."],
          ⟨{appId := "a", password := "p", serviceUrl := "s",
            settings := {exportFormat := "txt"}, fileName := "doc.png",
            downloadUrls := ["u1", "u2"]}, [], []⟩)) := by
  rfl

/-- Helper: with all fetches succeeding, the download loop always returns
successfully and yields exactly one path per pending URL, for every state
of the extension queue. -/
theorem runDownloadLoop_ok_length (targetDir : String) (client : AbbyyOcr) :
    ∀ (urls : List String) (exts : List (List Char)),
      ∃ paths fin,
        (runDownloadLoop (fun _ => true) targetDir client urls exts).2 =
          .ok (paths, fin) ∧ paths.length = urls.length := by
  intro urls
  induction urls with
  | nil => exact fun exts => ⟨[], ⟨client, [], exts⟩, rfl, rfl⟩
  | cons u us ih =>
    intro exts
    obtain ⟨paths, fin, heq, hlen⟩ := ih (jsShift exts).2
    refine ⟨pathJoin targetDir
        (buildFileName client.fileName (jsShift exts).1) :: paths, fin,
      ?_, by simp [hlen]⟩
    simp [runDownloadLoop, heq, Except.map]

/-- Claim C6 as amended: the sequencer makes no lock-step check and raises
no structural-mismatch error — when every fetch succeeds it always
terminates successfully with exactly one yielded path per stored result
URL, whatever the length of the extension queue; surplus URLs get a
fabricated name with an empty extension, surplus extensions are silently
dropped. -/
theorem downloadResult_yields_per_url (tmpDir : String) (client : AbbyyOcr)
    (targetDirOpt : Option String) :
    ∃ paths fin,
      (downloadResult (fun _ => true) tmpDir client targetDirOpt).2 =
        .ok (paths, fin) ∧ paths.length = client.downloadUrls.length := by
  simp only [downloadResult]
  exact runDownloadLoop_ok_length _ client client.downloadUrls _

/-- Helper: the download loop never writes the client record — whatever
final state it reports carries the client it started with. -/
theorem runDownloadLoop_client_frame (fetchOk : String → Bool)
    (targetDir : String) (client : AbbyyOcr) :
    ∀ (urls : List String) (exts : List (List Char)) (paths : List String)
      (fin : DownloadState),
      (runDownloadLoop fetchOk targetDir client urls exts).2 =
        .ok (paths, fin) → fin.client = client := by
  intro urls
  induction urls with
  | nil =>
    intro exts paths fin h
    simp only [runDownloadLoop, Except.ok.injEq, Prod.mk.injEq] at h
    obtain ⟨-, hf⟩ := h
    subst hf
    rfl
  | cons u us ih =>
    intro exts paths fin h
    simp only [runDownloadLoop] at h
    cases hfu : fetchOk u with
    | false => rw [if_neg (by simp [hfu])] at h; simp at h
    | true =>
      rw [if_pos (by simp [hfu])] at h
      rcases hr : (runDownloadLoop fetchOk targetDir client us
          (jsShift exts).2).2 with e | ⟨ps, st⟩
      · rw [hr] at h; simp [Except.map] at h
      · rw [hr] at h
        simp only [Except.map, Except.ok.injEq, Prod.mk.injEq] at h
        obtain ⟨-, hf⟩ := h
        subst hf
        exact ih (jsShift exts).2 ps st hr

/-- Claim C10: running the download sequencer to exhaustion leaves the
client record — `downloadUrls`, `fileName`, `settings` and all other
fields — unchanged, so a second `downloadResult` call over the resulting
client iterates the same URLs and is the same computation as the first. -/
theorem downloadResult_client_frame (fetchOk : String → Bool)
    (tmpDir : String) (client : AbbyyOcr) (targetDirOpt : Option String)
    (paths : List String) (fin : DownloadState)
    (h : (downloadResult fetchOk tmpDir client targetDirOpt).2 =
      .ok (paths, fin)) :
    fin.client = client ∧
    downloadResult fetchOk tmpDir fin.client targetDirOpt =
      downloadResult fetchOk tmpDir client targetDirOpt := by
  have hc : fin.client = client :=
    runDownloadLoop_client_frame fetchOk _ client client.downloadUrls
      (computeExtensions client.settings.exportFormat) paths fin h
  exact ⟨hc, by rw [hc]⟩

/-- Witness for C10: the concrete single-URL client is intact in the final
generator state, and re-running the sequencer is the identical call. -/
theorem downloadResult_client_frame_witness :
    (⟨{appId := "a", password := "p", serviceUrl := "s",
        settings := {exportFormat := "txt"}, fileName := "doc.png",
        downloadUrls := ["u1"]}, [], []⟩ : DownloadState).client =
      {appId := "a", password := "p", serviceUrl := "s",
        settings := {exportFormat := "txt"}, fileName := "doc.png",
        downloadUrls := ["u1"]} ∧
    downloadResult (fun _ => true) "/t"
        (⟨{appId := "a", password := "p", serviceUrl := "s",
            settings := {exportFormat := "txt"}, fileName := "doc.png",
            downloadUrls := ["u1"]}, [], []⟩ : DownloadState).client
        (some "/out") =
      downloadResult (fun _ => true) "/t"
        {appId := "a", password := "p", serviceUrl := "s",
          settings := {exportFormat := "txt"}, fileName := "doc.png",
          downloadUrls := ["u1"]} (some "/out") :=
  downloadResult_client_frame (fun _ => true) "/t"
    {appId := "a", password := "p", serviceUrl := "s",
      settings := {exportFormat := "txt"}, fileName := "doc.png",
      downloadUrls := ["u1"]} (some "/out") ["/out/doc.txt"]
    ⟨{appId := "a", password := "p", serviceUrl := "s",
      settings := {exportFormat := "txt"}, fileName := "doc.png",
      downloadUrls := ["u1"]}, [], []⟩ (by rfl)

/-! ## Progress event ordering -/

/-- Claim C7: in a single-file run producing one result, the events emitted
on the client's emitter — and hence delivered synchronously, in
registration order, to every subscriber registered before `process()` — are
exactly `uploading`, then `processing`, then the one `downloading` event,
in that order. -/
theorem fullRunEvents_order (client : AbbyyOcr) (filePath : String)
    (td0 tdC : TaskData) (replies : StatusReplies)
    (u tmpDir : String) (targetDirOpt : Option String)
    (hActive : isTaskActive td0 = true)
    (hPoll : (waitForCompletion td0.id replies).2 = some (.ok tdC))
    (hDone : tdC.status = "Completed")
    (hUrls : collectUrls tdC = [u]) :
    ∃ fn, fullRunEvents client filePath (.ok td0) replies (fun _ => true)
        tmpDir targetDirOpt =
      [.uploading (basename filePath), .processing (basename filePath),
        .downloading fn] := by
  have hAwait : (awaitCompletion td0.id replies).2 = some (.ok tdC) := by
    simp [awaitCompletion, hPoll, hDone]
  refine ⟨buildFileName (basename filePath)
      (jsShift (computeExtensions client.settings.exportFormat)).1, ?_⟩
  simp [fullRunEvents, processRun, hActive, hAwait, hDone, hUrls,
    downloadResult, runDownloadLoop, jsShift]

/-- Witness for C7: a concrete queued-then-completed run over `dir/doc.png`
with one result URL emits `uploading doc.png`, `processing doc.png`,
`downloading doc.txt`. -/
theorem fullRunEvents_order_witness :
    ∃ fn, fullRunEvents
        {appId := "a", password := "p", serviceUrl := "s", settings := {},
          fileName := "", downloadUrls := []} "dir/doc.png"
        (.ok {id := "t1", status := "Queued"})
        [.ok {status := "Completed", resultUrl := some "u1"}]
        (fun _ => true) "/t" (some "/out") =
      [.uploading (basename "dir/doc.png"),
        .processing (basename "dir/doc.png"), .downloading fn] :=
  fullRunEvents_order
    {appId := "a", password := "p", serviceUrl := "s", settings := {},
      fileName := "", downloadUrls := []} "dir/doc.png"
    {id := "t1", status := "Queued"}
    {status := "Completed", resultUrl := some "u1"}
    [.ok {status := "Completed", resultUrl := some "u1"}] "u1" "/t"
    (some "/out") (by decide) (by rfl) rfl (by decide)
